import Mathlib

/-!
Verification development for the Power BI MCP chat server (app_test5.py).

Python strings are modelled as lists of characters; Python floats arising
from difflib ratios and the fixed scores 1.0 / 0.9 / 0.6 are modelled as
exact rationals.  Every definition is a direct shallow embedding of the
corresponding Python function, with the embedded source line ranges noted
in the doc comments.
-/

namespace PowerBIMCP

open scoped List

/-- Python strings, modelled as lists of characters. -/
abbrev Str := List Char

/-- Python str.lower, character by character (ASCII regime). -/
def lowerStr (s : Str) : Str := s.map Char.toLower

/-! ### difflib.SequenceMatcher model

fuzzy_match (line 50) calls difflib's SequenceMatcher(None, a, b).ratio().
We model it for the no-junk regime (no junk predicate is passed, and the
autojunk heuristic only applies to strings of length >= 200): ratio is
2*M/T where T is the total length and M the total size of the matching
blocks produced by recursively taking the longest matching block
(earliest in a, then earliest in b, among maximal ones). -/

/-- Length of the common prefix of two strings. -/
def runLen : Str → Str → Nat
  | x :: a, y :: b => if x = y then runLen a b + 1 else 0
  | _, _ => 0

/-- Length of the matching run of a and b starting at positions i and j,
truncated to the windows ending at ahi and bhi. -/
def matchLenAt (a b : Str) (ahi bhi i j : Nat) : Nat :=
  min (runLen (a.drop i) (b.drop j)) (min (ahi - i) (bhi - j))

/-- SequenceMatcher.find_longest_match on the windows a[alo:ahi], b[blo:bhi]
(no junk): the longest matching block, ties resolved towards the smallest
start in a and then in b; (alo, blo, 0) when there is no match. -/
def bestBlock (a b : Str) (alo ahi blo bhi : Nat) : Nat × Nat × Nat :=
  ((List.range' alo (ahi - alo)).flatMap
      (fun i => (List.range' blo (bhi - blo)).map (fun j => (i, j)))).foldl
    (fun best ij =>
      let k := matchLenAt a b ahi bhi ij.1 ij.2
      if best.2.2 < k then (ij.1, ij.2, k) else best)
    (alo, blo, 0)

theorem foldl_best_inv (a b : Str) (ahi bhi : Nat) (P : Nat × Nat × Nat → Prop)
    (l : List (Nat × Nat)) (acc : Nat × Nat × Nat)
    (hacc : P acc)
    (hstep : ∀ p ∈ l, P (p.1, p.2, matchLenAt a b ahi bhi p.1 p.2)) :
    P (l.foldl
      (fun best ij =>
        let k := matchLenAt a b ahi bhi ij.1 ij.2
        if best.2.2 < k then (ij.1, ij.2, k) else best)
      acc) := by
  induction l generalizing acc with
  | nil => exact hacc
  | cons p t ih =>
    simp only [List.foldl_cons]
    refine ih _ ?_ (fun q hq => hstep q (List.mem_cons_of_mem _ hq))
    by_cases hlt : acc.2.2 < matchLenAt a b ahi bhi p.1 p.2
    · simpa [hlt] using hstep p (List.mem_cons_self _ _)
    · simpa [hlt] using hacc

theorem bestBlock_bounds (a b : Str) (alo ahi blo bhi : Nat)
    (h : (bestBlock a b alo ahi blo bhi).2.2 ≠ 0) :
    alo ≤ (bestBlock a b alo ahi blo bhi).1 ∧
      (bestBlock a b alo ahi blo bhi).1 + (bestBlock a b alo ahi blo bhi).2.2 ≤ ahi ∧
      blo ≤ (bestBlock a b alo ahi blo bhi).2.1 ∧
      (bestBlock a b alo ahi blo bhi).2.1 + (bestBlock a b alo ahi blo bhi).2.2 ≤ bhi := by
  refine foldl_best_inv a b ahi bhi
    (fun t => t.2.2 ≠ 0 → alo ≤ t.1 ∧ t.1 + t.2.2 ≤ ahi ∧ blo ≤ t.2.1 ∧ t.2.1 + t.2.2 ≤ bhi)
    _ _ (fun hc => absurd rfl hc) ?_ h
  intro p hp _
  simp only [List.mem_flatMap, List.mem_map] at hp
  obtain ⟨i, hi, j, hj, rfl⟩ := hp
  rw [List.mem_range'] at hi hj
  obtain ⟨di, hdi, rfl⟩ := hi
  obtain ⟨dj, hdj, rfl⟩ := hj
  dsimp only
  have hk1 : matchLenAt a b ahi bhi (alo + 1 * di) (blo + 1 * dj) ≤ ahi - (alo + 1 * di) := by
    unfold matchLenAt; omega
  have hk2 : matchLenAt a b ahi bhi (alo + 1 * di) (blo + 1 * dj) ≤ bhi - (blo + 1 * dj) := by
    unfold matchLenAt; omega
  refine ⟨by omega, by omega, by omega, by omega⟩

/-- Total size M of the matching blocks of SequenceMatcher.get_matching_blocks
on the windows a[alo:ahi], b[blo:bhi]: take the longest match, then recurse
to its left and to its right. -/
def matchedTotal (a b : Str) (alo ahi blo bhi : Nat) : Nat :=
  if h : (bestBlock a b alo ahi blo bhi).2.2 = 0 then 0
  else
    have _hb := bestBlock_bounds a b alo ahi blo bhi h
    matchedTotal a b alo (bestBlock a b alo ahi blo bhi).1 blo
        (bestBlock a b alo ahi blo bhi).2.1 +
      (bestBlock a b alo ahi blo bhi).2.2 +
      matchedTotal a b
        ((bestBlock a b alo ahi blo bhi).1 + (bestBlock a b alo ahi blo bhi).2.2) ahi
        ((bestBlock a b alo ahi blo bhi).2.1 + (bestBlock a b alo ahi blo bhi).2.2) bhi
termination_by (ahi - alo) + (bhi - blo)
decreasing_by
  · omega
  · omega

/-- SequenceMatcher.ratio: 2*M/T as an exact rational (1 when both strings
are empty, matching difflib's _calculate_ratio). -/
def ratio (a b : Str) : ℚ :=
  let t := a.length + b.length
  if t = 0 then 1
  else (2 * (matchedTotal a b 0 a.length 0 b.length) : ℚ) / (t : ℚ)

/-! ### fuzzy_match (app_test5.py lines 27-56) -/

/-- The dictionaries appended to the matches list by fuzzy_match. -/
structure MatchResult where
  name : Str
  score : ℚ
  match_type : Str
deriving DecidableEq

def exactTag : Str := ("exact").toList
def containsTag : Str := ("contains").toList
def fuzzyTag : Str := ("fuzzy").toList

/-- Python's substring operator: substrB p s is True iff p occurs
contiguously in s (the s in Python's p in s). -/
def substrB (p : Str) : Str → Bool
  | [] => p.isEmpty
  | c :: t => p.isPrefixOf (c :: t) || substrB p t

theorem substrB_iff (p s : Str) : substrB p s = true ↔ p <:+: s := by
  induction s with
  | nil =>
    simp [substrB, List.isEmpty_iff]
  | cons c t ih =>
    simp [substrB, ih, List.infix_cons_iff]

/-- The body of the for-loop of fuzzy_match (lines 35-52) for one option:
the entry appended to matches, if any. -/
def matchEntry (ql : Str) (threshold : ℚ) (opt : Str) : Option MatchResult :=
  let ol := lowerStr opt
  if ql = ol then some ⟨opt, 1, exactTag⟩
  else if substrB ql ol || substrB ol ql then some ⟨opt, 9/10, containsTag⟩
  else
    let r := ratio ql ol
    if threshold ≤ r then some ⟨opt, r, fuzzyTag⟩ else none

/-- The matches list built by the loop of fuzzy_match, before sorting:
one pass over the options in order, at most one entry per option. -/
def preMatches (query : Str) (options : List Str) (threshold : ℚ) : List MatchResult :=
  options.filterMap (matchEntry (lowerStr query) threshold)

/-- The order realising matches.sort with score key and reverse=True:
scores non-increasing. -/
def scoreGE (x y : MatchResult) : Prop := y.score ≤ x.score

instance : DecidableRel scoreGE :=
  fun x y => inferInstanceAs (Decidable (y.score ≤ x.score))

instance : IsTotal MatchResult scoreGE :=
  ⟨fun a b => le_total b.score a.score⟩

instance : IsTrans MatchResult scoreGE :=
  ⟨fun _ _ _ h1 h2 => le_trans h2 h1⟩

/-- Python's default threshold argument 0.6. -/
def defaultThreshold : ℚ := 3/5

/-- fuzzy_match (lines 27-56): build the matches list, then stable-sort it
by score, highest first (Python's list.sort is a stable sort; with
reverse=True equal-score entries keep their relative order, which is
exactly insertion sort under the scoreGE order). -/
def fuzzy_match (query : Str) (options : List Str) (threshold : ℚ) : List MatchResult :=
  (preMatches query options threshold).insertionSort scoreGE

/-! ### Helper lemmas about fuzzy_match -/

theorem matchEntry_name {ql : Str} {t : ℚ} {o : Str} {m : MatchResult}
    (h : matchEntry ql t o = some m) : m.name = o := by
  simp only [matchEntry] at h
  split at h
  · cases h; rfl
  · split at h
    · cases h; rfl
    · split at h
      · cases h; rfl
      · cases h

theorem preMatches_names_sublist (q : Str) (opts : List Str) (t : ℚ) :
    ((preMatches q opts t).map (fun m => m.name)) <+ opts := by
  induction opts with
  | nil => simp [preMatches]
  | cons o rest ih =>
    simp only [preMatches, List.filterMap_cons] at ih ⊢
    cases h : matchEntry (lowerStr q) t o with
    | none => exact ih.cons o
    | some m =>
      simpa [matchEntry_name h] using ih.cons₂ o

theorem substrB_nil_left (s : Str) : substrB [] s = true := by
  cases s <;> simp [substrB, List.isPrefixOf, List.isEmpty]

theorem lowerStr_eq_nil {s : Str} : lowerStr s = [] ↔ s = [] := by
  simp [lowerStr]

theorem matchEntry_nil_query (t : ℚ) (o : Str) :
    matchEntry [] t o =
      some (if o = [] then (⟨o, 1, exactTag⟩ : MatchResult) else ⟨o, 9/10, containsTag⟩) := by
  by_cases ho : o = []
  · subst ho
    simp [matchEntry, lowerStr]
  · have hol : lowerStr o ≠ [] := fun hc => ho (lowerStr_eq_nil.mp hc)
    simp [matchEntry, Ne.symm hol, substrB_nil_left, ho]

theorem preMatches_nil_query (opts : List Str) (t : ℚ) :
    preMatches [] opts t =
      opts.map (fun o =>
        if o = [] then (⟨o, 1, exactTag⟩ : MatchResult) else ⟨o, 9/10, containsTag⟩) := by
  unfold preMatches
  have hl : lowerStr [] = [] := rfl
  rw [hl]
  induction opts with
  | nil => rfl
  | cons o rest ih => simp only [List.filterMap_cons, matchEntry_nil_query, List.map_cons, ih]

/-! ### Claim theorems about fuzzy_match -/

/-- Claim C1, counterexample: the claim says an empty query never produces a
contains entry for a non-empty candidate, but Python's substring operator
holds for the empty string, so fuzzy_match with empty query and the
non-empty candidate list consisting of the single non-empty string a
returns a contains entry with score 0.9 rather than the empty result. -/
theorem fuzzy_match_empty_query_counterexample :
    fuzzy_match [] (["a".toList]) defaultThreshold =
      [⟨("a").toList, 9/10, containsTag⟩] ∧ ("a").toList ≠ ([] : Str) := by
  constructor
  · simp [fuzzy_match, preMatches, matchEntry, lowerStr, substrB, List.insertionSort,
      List.orderedInsert, List.isPrefixOf]
  · simp

/-- Claim C1, amended: with an empty query every candidate yields exactly one
entry — empty candidates an exact match at score 1.0, non-empty candidates a
contains match at score 0.9 — so the result has one entry per candidate and
is never empty for a non-empty candidate list. -/
theorem fuzzy_match_empty_query (opts : List Str) (t : ℚ) :
    (fuzzy_match [] opts t).length = opts.length ∧
      ∀ m ∈ fuzzy_match [] opts t,
        (m.name = [] ∧ m.score = 1 ∧ m.match_type = exactTag) ∨
        (m.name ≠ [] ∧ m.score = 9/10 ∧ m.match_type = containsTag) := by
  constructor
  · rw [fuzzy_match, List.length_insertionSort, preMatches_nil_query, List.length_map]
  · intro m hm
    rw [fuzzy_match, List.mem_insertionSort, preMatches_nil_query, List.mem_map] at hm
    obtain ⟨o, _, hexp⟩ := hm
    by_cases ho : o = []
    · left
      rw [if_pos ho] at hexp
      subst ho
      rw [← hexp]
      exact ⟨rfl, rfl, rfl⟩
    · right
      rw [if_neg ho] at hexp
      rw [← hexp]
      exact ⟨ho, rfl, rfl⟩

/-- Witness for the amended C1 theorem at the concrete candidate list
containing the single non-empty string a. -/
theorem fuzzy_match_empty_query_witness :
    (fuzzy_match [] (["a".toList]) defaultThreshold).length = (["a".toList]).length ∧
      (((⟨("a").toList, 9/10, containsTag⟩ : MatchResult).name = [] ∧
          (⟨("a").toList, 9/10, containsTag⟩ : MatchResult).score = 1 ∧
          (⟨("a").toList, 9/10, containsTag⟩ : MatchResult).match_type = exactTag) ∨
        ((⟨("a").toList, 9/10, containsTag⟩ : MatchResult).name ≠ [] ∧
          (⟨("a").toList, 9/10, containsTag⟩ : MatchResult).score = 9/10 ∧
          (⟨("a").toList, 9/10, containsTag⟩ : MatchResult).match_type = containsTag)) := by
  refine ⟨(fuzzy_match_empty_query (["a".toList]) defaultThreshold).1, ?_⟩
  refine (fuzzy_match_empty_query (["a".toList]) defaultThreshold).2 _ ?_
  simp [fuzzy_match, preMatches, matchEntry, lowerStr, substrB, List.insertionSort,
    List.orderedInsert, List.isPrefixOf]

/-- Claim C3, counterexample: the claim quantifies over q ≠ c, but when q and
c differ only in case (q is then a case-insensitive substring of c), the
exact tier fires first and the result is an exact entry at score 1.0, not a
contains entry at score 0.9. -/
theorem fuzzy_match_contains_counterexample :
    ("Sale").toList ≠ ("sale").toList ∧
      lowerStr (("Sale").toList) <:+: lowerStr (("sale").toList) ∧
      fuzzy_match (("Sale").toList) (["sale".toList]) defaultThreshold =
        [⟨("sale").toList, 1, exactTag⟩] := by
  refine ⟨by simp, ⟨[], [], by rfl⟩, ?_⟩
  simp [fuzzy_match, preMatches, matchEntry, lowerStr, substrB, List.insertionSort,
    List.orderedInsert, List.isPrefixOf]

/-- Claim C3, amended: for all strings q and c where one of the lower-cased
strings is a substring of the other and the lower-cased strings differ,
fuzzy_match of q against the single candidate c yields exactly the contains
entry with score 0.9. -/
theorem fuzzy_match_contains (q c : Str) (t : ℚ)
    (hsub : lowerStr q <:+: lowerStr c ∨ lowerStr c <:+: lowerStr q)
    (hne : lowerStr q ≠ lowerStr c) :
    fuzzy_match q [c] t = [⟨c, 9/10, containsTag⟩] := by
  have hcond : (substrB (lowerStr q) (lowerStr c) || substrB (lowerStr c) (lowerStr q)) = true := by
    rcases hsub with h | h
    · simp [(substrB_iff _ _).mpr h]
    · simp [(substrB_iff _ _).mpr h]
  unfold fuzzy_match preMatches
  simp only [List.filterMap_cons, List.filterMap_nil]
  rw [matchEntry]
  simp only [if_neg hne, hcond, if_true]
  simp [List.insertionSort, List.orderedInsert]

/-- Witness for the amended C3 theorem: the query sal against the single
candidate Sales. -/
theorem fuzzy_match_contains_witness :
    fuzzy_match (("sal").toList) (["Sales".toList]) defaultThreshold =
      [⟨("Sales").toList, 9/10, containsTag⟩] := by
  refine fuzzy_match_contains _ _ _ (Or.inl ?_) ?_
  · exact (substrB_iff _ _).mp (by rfl)
  · simp [lowerStr]

/-- Claim C4: the result of fuzzy_match is sorted with scores non-increasing,
and entries of equal score appear in the same relative order as in the
unsorted matches list (whose order is the candidates' input order), i.e. the
sort is stable; determinism on equal inputs is immediate since fuzzy_match is
a pure function. -/
theorem fuzzy_match_sorted_stable (q : Str) (opts : List Str) (t : ℚ) :
    (fuzzy_match q opts t).Pairwise scoreGE ∧
      ∀ s : ℚ, (fuzzy_match q opts t).filter (fun m => decide (m.score = s)) =
        (preMatches q opts t).filter (fun m => decide (m.score = s)) := by
  constructor
  · exact List.sorted_insertionSort scoreGE (preMatches q opts t)
  · intro s
    set p : MatchResult → Bool := fun m => decide (m.score = s) with hp
    set pm := preMatches q opts t with hpm
    have hc : (pm.filter p).Pairwise scoreGE := by
      apply List.pairwise_of_forall_mem_list
      intro a ha b hb
      have ha' : a.score = s := by simpa [hp] using (List.mem_filter.mp ha).2
      have hb' : b.score = s := by simpa [hp] using (List.mem_filter.mp hb).2
      show b.score ≤ a.score
      rw [ha', hb']
    have hsub : pm.filter p <+ List.insertionSort scoreGE pm :=
      List.sublist_insertionSort hc (List.filter_sublist pm)
    have hsub2 : pm.filter p <+ (List.insertionSort scoreGE pm).filter p := by
      have := List.Sublist.filter p hsub
      rwa [List.filter_filter, show (fun a => p a && p a) = p from by
        funext a; cases p a <;> simp] at this
    have hlen : ((List.insertionSort scoreGE pm).filter p).length = (pm.filter p).length :=
      ((List.perm_insertionSort scoreGE pm).filter p).length_eq
    exact (hsub2.eq_of_length hlen.symm).symm

/-- Claim C5: fuzzy_match returns at most one entry per candidate, so the
result is never longer than the candidate list (the candidate list itself is
never mutated: the embedding is a pure function of it). -/
theorem fuzzy_match_length_le (q : Str) (opts : List Str) (t : ℚ) :
    (fuzzy_match q opts t).length ≤ opts.length := by
  rw [fuzzy_match, List.length_insertionSort]
  exact List.length_filterMap_le _ _

/-- Claim C10: the names of the returned entries form a sub-permutation of
the candidate list: every name is verbatim one of the candidates (original
casing), and each candidate occurrence accounts for at most one entry. -/
theorem fuzzy_match_names_subperm (q : Str) (opts : List Str) (t : ℚ) :
    ((fuzzy_match q opts t).map (fun m => m.name)) <+~ opts :=
  ⟨(preMatches q opts t).map (fun m => m.name),
    ((List.perm_insertionSort scoreGE (preMatches q opts t)).map (fun m => m.name)).symm,
    preMatches_names_sublist q opts t⟩

/-! ### detect_user_intent (app_test5.py lines 112-128) -/

def showKeywords : List Str :=
  [("show").toList, ("display").toList, ("view").toList, ("get").toList,
    ("what is").toList, ("tell me").toList, ("give me").toList]

def createKeywords : List Str :=
  [("create").toList, ("add").toList, ("make").toList, ("build").toList, ("new").toList]

def updateKeywords : List Str :=
  [("update").toList, ("modify").toList, ("change").toList, ("edit").toList]

def deleteKeywords : List Str :=
  [("delete").toList, ("remove").toList, ("drop").toList]

/-- detect_user_intent (lines 112-128): lower-case the utterance once, then
test the four fixed keyword sets in priority order, returning the intent of
the first set with a matching substring, and unknown when none matches. -/
def detect_user_intent (user_input : Str) : Str :=
  let lower := lowerStr user_input
  if showKeywords.any (fun w => substrB w lower) then ("show").toList
  else if createKeywords.any (fun w => substrB w lower) then ("create").toList
  else if updateKeywords.any (fun w => substrB w lower) then ("update").toList
  else if deleteKeywords.any (fun w => substrB w lower) then ("delete").toList
  else ("unknown").toList

/-- Claim C6: detect_user_intent tests the four fixed keyword sets against
the lower-cased utterance in the priority order show, create, update,
delete, and returns the intent of the first set with a matching substring;
in particular a show-keyword match wins regardless of any create-keyword
match, and no match in any set yields unknown. -/
theorem detect_user_intent_priority (s : Str) :
    (showKeywords.any (fun w => substrB w (lowerStr s)) = true →
        detect_user_intent s = ("show").toList) ∧
      (showKeywords.any (fun w => substrB w (lowerStr s)) = false →
        createKeywords.any (fun w => substrB w (lowerStr s)) = true →
        detect_user_intent s = ("create").toList) ∧
      (showKeywords.any (fun w => substrB w (lowerStr s)) = false →
        createKeywords.any (fun w => substrB w (lowerStr s)) = false →
        updateKeywords.any (fun w => substrB w (lowerStr s)) = true →
        detect_user_intent s = ("update").toList) ∧
      (showKeywords.any (fun w => substrB w (lowerStr s)) = false →
        createKeywords.any (fun w => substrB w (lowerStr s)) = false →
        updateKeywords.any (fun w => substrB w (lowerStr s)) = false →
        deleteKeywords.any (fun w => substrB w (lowerStr s)) = true →
        detect_user_intent s = ("delete").toList) ∧
      (showKeywords.any (fun w => substrB w (lowerStr s)) = false →
        createKeywords.any (fun w => substrB w (lowerStr s)) = false →
        updateKeywords.any (fun w => substrB w (lowerStr s)) = false →
        deleteKeywords.any (fun w => substrB w (lowerStr s)) = false →
        detect_user_intent s = ("unknown").toList) := by
  refine ⟨fun h1 => ?_, fun h1 h2 => ?_, fun h1 h2 h3 => ?_,
    fun h1 h2 h3 h4 => ?_, fun h1 h2 h3 h4 => ?_⟩ <;>
    simp [detect_user_intent, *]

/-- Witness for C6: the utterance show and create a measure contains both a
show-keyword and a create-keyword and classifies as show; the utterance zzz
matches no keyword set and classifies as unknown. -/
theorem detect_user_intent_priority_witness :
    detect_user_intent (("show and create a measure").toList) = ("show").toList ∧
      detect_user_intent (("zzz").toList) = ("unknown").toList := by
  constructor
  · exact (detect_user_intent_priority _).1 (by rfl)
  · exact (detect_user_intent_priority _).2.2.2.2 (by rfl) (by rfl) (by rfl) (by rfl)

/-! ### parse_measure_request (app_test5.py lines 131-153) -/

/-- The result dictionary of parse_measure_request. -/
structure MeasureInfo where
  operation : Option Str
  table : Option Str
  column : Option Str
  hasExplicitSyntax : Bool
deriving DecidableEq

/-- A word character of the regex class backslash-w (ASCII regime):
letters, digits and underscore. -/
def wordChar (c : Char) : Bool := c.isAlphanum || c = '_'

/-- A character of the regex class [A-Za-z_]. -/
def startChar (c : Char) : Bool := c.isAlpha || c = '_'

/-- One attempt of the regex ([A-Za-z_]\w*)\[(\w+)\] at the start of s:
a word run starting with a start character, then an opening bracket, a
non-empty word run, and a closing bracket.  (The star and plus are greedy;
since brackets are not word characters the greedy runs need no
backtracking.) -/
def matchAt (s : Str) : Option (Str × Str) :=
  match s with
  | [] => none
  | c :: rest =>
    if startChar c then
      let run := rest.takeWhile wordChar
      match rest.drop run.length with
      | '[' :: rest2 =>
        let col := rest2.takeWhile wordChar
        if col.isEmpty then none
        else
          match rest2.drop col.length with
          | ']' :: _ => some (c :: run, col)
          | _ => none
      | _ => none
    else none

/-- re.search of ([A-Za-z_]\w*)\[(\w+)\] (line 146): the leftmost match,
scanning start positions from the left. -/
def findTableColumn : Str → Option (Str × Str)
  | [] => none
  | c :: rest =>
    match matchAt (c :: rest) with
    | some r => some r
    | none => findTableColumn rest

def sumKeywords : List Str := [("total").toList, ("sum").toList]
def avgKeywords : List Str := [("average").toList, ("avg").toList, ("mean").toList]
def countKeywords : List Str := [("count").toList, ("number").toList]
def distinctKeywords : List Str := [("unique").toList, ("distinct").toList]
def minKeywords : List Str := [("min").toList, ("minimum").toList]
def maxKeywords : List Str := [("max").toList, ("maximum").toList]

/-- parse_measure_request (lines 131-153): detect the aggregation operation
from fixed keyword groups on the lower-cased input, and independently search
the original-case input for an explicit Table[Column] reference. -/
def parse_measure_request (user_input : Str) : MeasureInfo :=
  let lower := lowerStr user_input
  let op : Option Str :=
    if sumKeywords.any (fun w => substrB w lower) then some (("SUM").toList)
    else if avgKeywords.any (fun w => substrB w lower) then some (("AVERAGE").toList)
    else if countKeywords.any (fun w => substrB w lower) then some (("COUNT").toList)
    else if distinctKeywords.any (fun w => substrB w lower) then some (("DISTINCTCOUNT").toList)
    else if minKeywords.any (fun w => substrB w lower) then some (("MIN").toList)
    else if maxKeywords.any (fun w => substrB w lower) then some (("MAX").toList)
    else none
  let m := findTableColumn user_input
  { operation := op
    table := m.map (fun r => r.1)
    column := m.map (fun r => r.2)
    hasExplicitSyntax := m.isSome }

/-- Claim C7: operation detection and explicit-syntax detection are
independent: total sales has an operation and no explicit syntax,
show Sales[Amount] has explicit table and column but no operation, and
average Sales[Amount] has both at once. -/
theorem parse_measure_request_independent :
    parse_measure_request (("total sales").toList) =
        ⟨some (("SUM").toList), none, none, false⟩ ∧
      parse_measure_request (("show Sales[Amount]").toList) =
        ⟨none, some (("Sales").toList), some (("Amount").toList), true⟩ ∧
      parse_measure_request (("average Sales[Amount]").toList) =
        ⟨some (("AVERAGE").toList), some (("Sales").toList), some (("Amount").toList), true⟩ := by
  refine ⟨?_, ?_, ?_⟩ <;> rfl

/-! ### search_tables_and_columns (app_test5.py lines 59-109)

The two external calls are modelled by their outcomes: load_mcp_tools
either raises (Except.error) or returns the tool list, and each tool's
ainvoke with empty arguments either raises or returns a value that is
either a dictionary (with optional tables and columns keys) or not. -/

/-- The value returned by a schema tool's ainvoke: a dictionary with
optional tables and columns entries, or any non-dictionary value. -/
inductive SchemaPayload
  | dict (tables : Option (List Str)) (columns : Option (List Str))
  | nonDict
deriving DecidableEq

/-- An MCP tool as seen by search_tables_and_columns: its name, and the
outcome of invoking it with empty arguments. -/
structure PBITool where
  name : Str
  invoke_result : Except Str SchemaPayload

/-- The result dictionary of search_tables_and_columns. -/
structure SearchResult where
  tables : List Str
  columns : List Str
  table_matches : List MatchResult
  column_matches : List MatchResult
deriving DecidableEq

/-- The keyword list used to select a schema-listing tool (line 80). -/
def schemaKeywords : List Str :=
  [("list").toList, ("get").toList, ("schema").toList, ("tables").toList,
    ("describe").toList]

/-- Whether a tool is selected as the list tool (line 80): its lower-cased
name contains one of the schema keywords. -/
def isListTool (t : PBITool) : Bool :=
  schemaKeywords.any (fun w => substrB w (lowerStr t.name))

/-- search_tables_and_columns (lines 59-109).  The initial result has all
four fields empty.  A failing tool discovery leaves it untouched (outer
except).  Otherwise the first tool whose lower-cased name contains one of
the schema keywords is invoked; a failing or non-dictionary invocation
leaves tables and columns empty (inner except and isinstance checks), and
fuzzy matching runs only for a supplied non-empty query against a non-empty
candidate list (Python truthiness of both operands). -/
def search_tables_and_columns (load_result : Except Str (List PBITool))
    (table_query column_query : Option Str) : SearchResult :=
  match load_result with
  | .error _ => ⟨[], [], [], []⟩
  | .ok tools =>
    let tc : List Str × List Str :=
      match tools.find? isListTool with
      | none => ([], [])
      | some tool =>
        match tool.invoke_result with
        | .error _ => ([], [])
        | .ok .nonDict => ([], [])
        | .ok (.dict ts cs) => (ts.getD [], cs.getD [])
    let table_matches :=
      match table_query with
      | none => []
      | some q => if q.isEmpty || tc.1.isEmpty then [] else fuzzy_match q tc.1 defaultThreshold
    let column_matches :=
      match column_query with
      | none => []
      | some q => if q.isEmpty || tc.2.isEmpty then [] else fuzzy_match q tc.2 defaultThreshold
    ⟨tc.1, tc.2, table_matches, column_matches⟩

/-- Claim C8: search_tables_and_columns never propagates a failure: a
failing tool discovery yields the all-empty result; a selected tool whose
invocation fails yields empty tables and columns (and hence empty match
lists); and whenever the returned tables (resp. columns) list is empty the
corresponding match list is empty as well, because matching never runs
against an empty candidate list. -/
theorem search_tables_and_columns_defensive :
    (∀ e tq cq, search_tables_and_columns (Except.error e) tq cq = ⟨[], [], [], []⟩) ∧
      (∀ tools tq cq tool e, tools.find? isListTool = some tool →
        tool.invoke_result = Except.error e →
        search_tables_and_columns (Except.ok tools) tq cq = ⟨[], [], [], []⟩) ∧
      (∀ lr tq cq,
        ((search_tables_and_columns lr tq cq).tables = [] →
          (search_tables_and_columns lr tq cq).table_matches = []) ∧
        ((search_tables_and_columns lr tq cq).columns = [] →
          (search_tables_and_columns lr tq cq).column_matches = [])) := by
  refine ⟨fun e tq cq => rfl, ?_, ?_⟩
  · intro tools tq cq tool e hfind hinv
    simp only [search_tables_and_columns, hfind, hinv]
    cases tq <;> cases cq <;> simp
  · intro lr tq cq
    cases lr with
    | error e => exact ⟨fun _ => rfl, fun _ => rfl⟩
    | ok tools =>
      simp only [search_tables_and_columns]
      constructor
      · intro ht
        rw [ht] at *
        cases tq with
        | none => rfl
        | some q => simp_all
      · intro hc
        rw [hc] at *
        cases cq with
        | none => rfl
        | some q => simp_all

/-- Witness for C8 at concrete inputs: a failed discovery with a pending
table query; a tool list whose selected schema tool fails on invocation;
and a successful discovery whose schema result has no tables, queried with
a non-empty table query. -/
theorem search_tables_and_columns_defensive_witness :
    search_tables_and_columns (Except.error (("boom").toList))
        (some (("sales").toList)) none = ⟨[], [], [], []⟩ ∧
      search_tables_and_columns
        (Except.ok [⟨("list_tables").toList, Except.error (("down").toList)⟩])
        (some (("sales").toList)) (some (("amount").toList)) = ⟨[], [], [], []⟩ ∧
      ((search_tables_and_columns
            (Except.ok [⟨("get_schema").toList, Except.ok (.dict none none)⟩])
            (some (("sales").toList)) none).tables = [] →
        (search_tables_and_columns
            (Except.ok [⟨("get_schema").toList, Except.ok (.dict none none)⟩])
            (some (("sales").toList)) none).table_matches = []) := by
  refine ⟨?_, ?_, ?_⟩
  · exact (search_tables_and_columns_defensive).1 _ _ _
  · exact (search_tables_and_columns_defensive).2.1 _ _ _ _ _ (by rfl) (by rfl)
  · exact ((search_tables_and_columns_defensive).2.2 _ _ _).1

/-! ### run_agent_once response extraction and error mapping
(app_test5.py lines 1904-1959)

Messages returned by the agent are modelled by their runtime type name and
their content attribute; content is a string, a list of segments (each a
dictionary with or without a text key, a plain string, or something else,
the latter two carrying their str() representation), some other value, or
absent. -/

/-- Python str.strip with no arguments: remove leading and trailing
whitespace (ASCII regime). -/
def pyStrip (s : Str) : Str :=
  ((s.dropWhile Char.isWhitespace).reverse.dropWhile Char.isWhitespace).reverse

/-- Fuel-driven helper for removeAll; the fuel only bounds the recursion
depth and is always sufficient when it starts at the length of the string,
since every step consumes at least one character. -/
def removeAllFuel (pat : Str) : Nat → Str → Str
  | 0, s => s
  | _, [] => []
  | fuel + 1, c :: rest =>
    if pat ≠ [] ∧ pat.isPrefixOf (c :: rest) then
      removeAllFuel pat fuel (List.drop (pat.length - 1) rest)
    else c :: removeAllFuel pat fuel rest

/-- Python str.replace(pat, empty): remove all non-overlapping occurrences
of pat, scanning left to right (a no-op for the empty pattern with an empty
replacement, as in Python). -/
def removeAll (pat s : Str) : Str := removeAllFuel pat s.length s

/-- Lines 1916-1917 and 1930-1931: replace every hint substring by the
empty string, hint after hint. -/
def stripHints (hints : List Str) (s : Str) : Str :=
  hints.foldl (fun acc h => removeAll h acc) s

/-- One item of a list-valued message content. -/
inductive Segment
  | textDict (s : Str)
  | otherDict (r : Str)
  | strSeg (s : Str)
  | other (r : Str)
deriving DecidableEq

/-- The content attribute of a message. -/
inductive PyContent
  | str (s : Str)
  | list (items : List Segment)
  | otherVal
deriving DecidableEq

/-- A message of the agent's returned message list. -/
structure PyMessage where
  typeName : Str
  content : Option PyContent
deriving DecidableEq

/-- Line 1910: type(msg).__name__ in ['AIMessage', 'AssistantMessage']. -/
def isAssistantMsg (m : PyMessage) : Bool :=
  m.typeName == ("AIMessage").toList || m.typeName == ("AssistantMessage").toList

/-- Lines 1922-1926: the text collected from one segment inside the
assistant-message loop (dictionaries with a text key and plain strings). -/
def segLoopText : Segment → Option Str
  | .textDict s => some s
  | .strSeg s => some s
  | _ => none

/-- Line 1941: the text a segment contributes in the fallback join:
str(item.get('text', item)) for dictionaries, str(item) otherwise. -/
def segFallbackText : Segment → Str
  | .textDict s => s
  | .otherDict r => r
  | .strSeg s => s
  | .other r => r

/-- Lines 1909-1932 for one message: the raw text of an assistant message
with usable content, before hint stripping — none when the loop continues
past the message.  For list content the collected texts must be non-empty,
and the joined text keeps only segments that strip to non-empty. -/
def aiRawText (m : PyMessage) : Option Str :=
  if isAssistantMsg m then
    match m.content with
    | some (.str s) => if (pyStrip s).isEmpty then none else some s
    | some (.list items) =>
      let texts := items.filterMap segLoopText
      if texts.isEmpty then none
      else some (List.intercalate (("\n").toList)
        (texts.filter (fun t => !(pyStrip t).isEmpty)))
    | _ => none
  else none

def successMsg : Str := ("✓ Operation completed successfully.").toList

def noResponseMsg : Str := ("No response received.").toList

/-- Lines 1935-1944: the fallback on the last message.  String content is
returned verbatim when it strips to non-empty; list content is joined with
spaces and returned verbatim when it strips to non-empty; anything else
yields the fixed success placeholder.  No hint stripping happens here. -/
def fallbackText (m : PyMessage) : Str :=
  match m.content with
  | some (.str s) => if (pyStrip s).isEmpty then successMsg else s
  | some (.list items) =>
    let text := List.intercalate ((" ").toList) (items.map segFallbackText)
    if (pyStrip text).isEmpty then successMsg else text
  | _ => successMsg

/-- Lines 1904-1944: the response extracted from the agent's message list.
Scan from the most recent message backwards for an assistant message with
usable text; if found, strip the hint substrings and trim it; otherwise
fall back on the last message; an empty message list yields the fixed
no-response placeholder. -/
def extract_response (hints : List Str) (msgs : List PyMessage) : Str :=
  match msgs.getLast? with
  | none => noResponseMsg
  | some last =>
    match msgs.reverse.findSome? aiRawText with
    | some t => pyStrip (stripHints hints t)
    | none => fallbackText last

/-! ### Error mapping (lines 1951-1959) -/

def notFoundMsg : Str :=
  ("❌ Table/column not found. Please verify the exact name in your Power BI model.").toList

def daxErrMsg : Str := ("❌ DAX syntax error. Please check the formula.").toList

def tooLongMsg : Str :=
  ("❌ Request too long. Please simplify or break into smaller parts.").toList

def errMarker : Str := ("❌ Error: ").toList

/-- Lines 1951-1959: classify the exception text by keyword matching on its
lower-cased form; only the generic category surfaces the raw text, prefixed
with the failure marker. -/
def map_agent_error (e : Str) : Str :=
  let err := lowerStr e
  if substrB (("not found").toList) err || substrB (("does not exist").toList) err then
    notFoundMsg
  else if substrB (("syntax").toList) err then daxErrMsg
  else if substrB (("context").toList) err || substrB (("token").toList) err then
    tooLongMsg
  else errMarker ++ e

/-! ### Claim theorems about extraction and error mapping -/

/-- Claim C2, counterexample: the claim says the fallback applies the same
hint-tag stripping before returning; in fact the fallback returns the last
message's text verbatim.  With a single human message whose text contains a
hint tag, the extracted response still contains the tag, while hint
stripping would have produced the stripped text. -/
theorem extract_response_fallback_counterexample :
    extract_response [("[Intent: SHOW]").toList]
        [⟨("HumanMessage").toList, some (PyContent.str (("[Intent: SHOW] hi").toList))⟩] =
      ("[Intent: SHOW] hi").toList ∧
      pyStrip (stripHints [("[Intent: SHOW]").toList] (("[Intent: SHOW] hi").toList)) =
        ("hi").toList ∧
      ("[Intent: SHOW] hi").toList ≠ ("hi").toList := by
  refine ⟨rfl, rfl, ?_⟩
  simp

/-- Claim C2, amended: when no message in the sequence is an assistant
message with usable text, extract_response falls back on the last message
regardless of role; string content that strips to non-empty is returned
verbatim (without hint stripping or trimming), and content that is absent,
of another type, or strips to empty yields the fixed success placeholder. -/
theorem extract_response_fallback (hints : List Str) (msgs : List PyMessage)
    (last : PyMessage) (hlast : msgs.getLast? = some last)
    (hno : ∀ m ∈ msgs, aiRawText m = none) :
    extract_response hints msgs = fallbackText last ∧
      (∀ s, last.content = some (PyContent.str s) → (pyStrip s).isEmpty = false →
        extract_response hints msgs = s) ∧
      (∀ s, last.content = some (PyContent.str s) → (pyStrip s).isEmpty = true →
        extract_response hints msgs = successMsg) ∧
      ((last.content = none ∨ last.content = some PyContent.otherVal) →
        extract_response hints msgs = successMsg) := by
  have hfind : msgs.reverse.findSome? aiRawText = none := by
    rw [List.findSome?_eq_none_iff]
    intro m hm
    exact hno m (List.mem_reverse.mp hm)
  have hmain : extract_response hints msgs = fallbackText last := by
    rw [extract_response, hlast, hfind]
  refine ⟨hmain, ?_, ?_, ?_⟩
  · intro s hs hne
    rw [hmain, fallbackText, hs]
    simp [hne]
  · intro s hs he
    rw [hmain, fallbackText, hs]
    simp [he]
  · rintro (h | h) <;> rw [hmain, fallbackText, h]

/-- Witness for the amended C2 theorem: a single human message whose text
has trailing whitespace is returned verbatim, untrimmed and unstripped. -/
theorem extract_response_fallback_witness :
    extract_response [("[Intent: SHOW]").toList]
        [⟨("HumanMessage").toList, some (PyContent.str (("hi  ").toList))⟩] =
      ("hi  ").toList := by
  refine (extract_response_fallback [("[Intent: SHOW]").toList] _
    ⟨("HumanMessage").toList, some (PyContent.str (("hi  ").toList))⟩
    (by rfl) ?_).2.1 (("hi  ").toList) rfl (by rfl)
  intro m hm
  rw [List.mem_singleton] at hm
  rw [hm]
  rfl

/-- Claim C9: map_agent_error tests the lower-cased error text in priority
order — not-found cues first, then the syntax cue, then the context and
token cues — returning the fixed message of the first matching category,
and in the remaining generic case, and only there, the raw error text
prefixed with the failure marker. -/
theorem map_agent_error_priority (e : Str) :
    ((substrB (("not found").toList) (lowerStr e) ||
          substrB (("does not exist").toList) (lowerStr e)) = true →
        map_agent_error e = notFoundMsg) ∧
      ((substrB (("not found").toList) (lowerStr e) ||
          substrB (("does not exist").toList) (lowerStr e)) = false →
        substrB (("syntax").toList) (lowerStr e) = true →
        map_agent_error e = daxErrMsg) ∧
      ((substrB (("not found").toList) (lowerStr e) ||
          substrB (("does not exist").toList) (lowerStr e)) = false →
        substrB (("syntax").toList) (lowerStr e) = false →
        (substrB (("context").toList) (lowerStr e) ||
          substrB (("token").toList) (lowerStr e)) = true →
        map_agent_error e = tooLongMsg) ∧
      ((substrB (("not found").toList) (lowerStr e) ||
          substrB (("does not exist").toList) (lowerStr e)) = false →
        substrB (("syntax").toList) (lowerStr e) = false →
        (substrB (("context").toList) (lowerStr e) ||
          substrB (("token").toList) (lowerStr e)) = false →
        map_agent_error e = errMarker ++ e) := by
  refine ⟨fun h1 => ?_, fun h1 h2 => ?_, fun h1 h2 h3 => ?_, fun h1 h2 h3 => ?_⟩ <;>
    simp_all [map_agent_error]

/-- Witness for C9 at concrete error texts, one per category. -/
theorem map_agent_error_priority_witness :
    map_agent_error (("Table Foo does not exist").toList) = notFoundMsg ∧
      map_agent_error (("DAX syntax error near SUM").toList) = daxErrMsg ∧
      map_agent_error (("context length exceeded").toList) = tooLongMsg ∧
      map_agent_error (("boom").toList) = errMarker ++ ("boom").toList := by
  refine ⟨?_, ?_, ?_, ?_⟩
  · exact (map_agent_error_priority _).1 (by rfl)
  · exact (map_agent_error_priority _).2.1 (by rfl) (by rfl)
  · exact (map_agent_error_priority _).2.2.1 (by rfl) (by rfl) (by rfl)
  · exact (map_agent_error_priority _).2.2.2 (by rfl) (by rfl) (by rfl)

end PowerBIMCP

